import Mathlib

/-!
Shallow embedding of the opener plugin's scope gate and program resolution
(`src/plugins/opener/src/commands.rs` and `src/plugins/opener/src/open.rs`),
together with theorems checking the specification's claims against it.

The scope matcher's internals (`scope.rs`) are not part of the visible
sources; the definitions embedding them are modelled from the spec and say
so in their doc comments.  Everything else is translated from the source.
-/

namespace Opener

/-- Error type of the plugin, restricted to the variants the visible code
constructs or propagates: `ForbiddenUrl(String)`, `ForbiddenPath(String)`,
`UnknownProgramName(String)`, and the I/O error wrapping a failed path
normalization. -/
inductive Error where
  | forbiddenUrl (url : String)
  | forbiddenPath (path : String)
  | unknownProgramName (n : String)
  | io (e : String)
deriving DecidableEq, Repr

/-- `Program` from `open.rs`: closed enumeration of recognized external
handler programs.  `Open` is a Lean keyword, hence `open'`. -/
inductive Program where
  | open'
  | start
  | xdgOpen
  | gio
  | gnomeOpen
  | kdeOpen
  | wslView
  | firefox
  | chrome
  | chromium
  | safari
deriving DecidableEq, Repr

/-- The `Display` impl for `Program` in `open.rs`: the canonical display
token.  The source has no platform conditional here, so neither does the
embedding. -/
def Program.display : Program → String
  | .open' => "open"
  | .start => "start"
  | .xdgOpen => "xdg-open"
  | .gio => "gio"
  | .gnomeOpen => "gnome-open"
  | .kdeOpen => "kde-open"
  | .wslView => "wslview"
  | .firefox => "firefox"
  | .chrome => "chrome"
  | .chromium => "chromium"
  | .safari => "safari"

/-- `Program::name` from `open.rs`: the platform executable name.  The
`cfg(target_os = "macos")` split is resolved at build configuration time in
the source; here it is the `macos : Bool` parameter fixed per build. -/
def Program.name (macos : Bool) : Program → String
  | .open' => "open"
  | .start => "start"
  | .xdgOpen => "xdg-open"
  | .gio => "gio"
  | .gnomeOpen => "gnome-open"
  | .kdeOpen => "kde-open"
  | .wslView => "wslview"
  | .firefox => if macos then "Firefox" else "firefox"
  | .chrome => if macos then "Google Chrome" else "google-chrome"
  | .chromium => if macos then "Chromium" else "chromium"
  | .safari => if macos then "Safari" else "safari"

/-- Embeds Rust's `str::to_lowercase` on the inputs this code meets:
per-character lowercasing (the ASCII fragment, which covers every token the
parser recognizes). -/
def lowercase (s : String) : String :=
  String.mk (s.data.map Char.toLower)

/-- The lowercased-token table of the `FromStr` impl in `open.rs`: each arm
of the `match s.to_lowercase().as_str()` expression, in source order, with
the alias arm `"chrome" | "google chrome"` split into its two patterns. -/
def lookupProg (l : String) : Option Program :=
  if l = "open" then some .open'
  else if l = "start" then some .start
  else if l = "xdg-open" then some .xdgOpen
  else if l = "gio" then some .gio
  else if l = "gnome-open" then some .gnomeOpen
  else if l = "kde-open" then some .kdeOpen
  else if l = "wslview" then some .wslView
  else if l = "firefox" then some .firefox
  else if l = "chrome" then some .chrome
  else if l = "google chrome" then some .chrome
  else if l = "chromium" then some .chromium
  else if l = "safari" then some .safari
  else none

/-- `FromStr for Program` from `open.rs`: lowercase the input, match it
against the token table, and on no match return `UnknownProgramName`
carrying the original (not lowercased) input. -/
def Program.fromStr (s : String) : Except Error Program :=
  match lookupProg (lowercase s) with
  | some p => .ok p
  | none => .error (.unknownProgramName s)

/-- The OS-level open primitive is an out-of-scope collaborator; a permitted
request is recorded as the invocation it dispatches. -/
inductive Effect where
  | thatDetached (path : String)
  | withDetached (path : String) (program : String)
  | revealItem (path : String)
deriving DecidableEq, Repr

/-- `open` from `open.rs`: dispatch `path` to `open::with_detached` with the
override program's platform executable name when `with` is given, else to
`open::that_detached`. -/
def open' (macos : Bool) (path : String) (w : Option Program) : Effect :=
  match w.map (Program.name macos) with
  | some program => .withDetached path program
  | none => .thatDetached path

/-- A scope entry.  Modelled from the spec: the entry grammar is opaque
("a single pattern ... matchable against a concrete URL string or path");
an entry is a pattern string. -/
structure Entry where
  pattern : String
deriving DecidableEq, Repr

/-- Modelled from the spec: matching "must support at minimum exact match
and prefix/glob-style wildcarding".  A pattern with a trailing `*` matches
every candidate having the rest as a prefix; otherwise matching is exact.
The matcher source (`scope.rs`) is not in the visible tree. -/
def Entry.matches (e : Entry) (candidate : String) : Bool :=
  if e.pattern.data.getLast? == some '*' then
    (e.pattern.data.dropLast).isPrefixOf candidate.data
  else
    e.pattern == candidate

/-- `Scope` as constructed by `Scope::new` in the commands: the effective
allow and deny entry lists of one request. -/
structure Scope where
  allowed : List Entry
  denied : List Entry

def Scope.new (allowed denied : List Entry) : Scope :=
  ⟨allowed, denied⟩

/-- Modelled from the spec: the matcher's decision algorithm — "if any deny
entry matches the candidate → false, unconditionally.  Else if any allow
entry matches → true.  Else → false (default deny)."  The matcher source
(`scope.rs`) is not in the visible tree. -/
def scopeDecision (allowed denied : List Entry) (candidate : String) : Bool :=
  if denied.any (fun e => e.matches candidate) then false
  else allowed.any (fun e => e.matches candidate)

/-- Modelled from the spec: `is_url_allowed` applies the decision algorithm
to the URL candidate. -/
def Scope.is_url_allowed (s : Scope) (url : String) : Bool :=
  scopeDecision s.allowed s.denied url

/-- Modelled from the spec: `is_path_allowed` first normalizes the path
(filesystem resolution, here the oracle `norm`), then applies the decision
algorithm to the normalized form; a normalization failure surfaces as an
I/O error, a kind distinct from denial. -/
def Scope.is_path_allowed (norm : String → Except String String) (s : Scope)
    (path : String) : Except Error Bool :=
  match norm path with
  | .error e => .error (.io e)
  | .ok n => .ok (scopeDecision s.allowed s.denied n)

/-- The allow/deny entry collections supplied by one scope source
(`CommandScope` or `GlobalScope`). -/
structure ScopeData where
  allows : List Entry
  denies : List Entry

namespace Commands

/-- `open_url` from `commands.rs`: build the scope by chaining command-scope
entries with global-scope entries, then either dispatch to the opener or
return `ForbiddenUrl` carrying the requested string. -/
def open_url (macos : Bool) (command_scope global_scope : ScopeData)
    (path : String) (w : Option Program) : Except Error Effect :=
  let scope := Scope.new (command_scope.allows ++ global_scope.allows)
    (command_scope.denies ++ global_scope.denies)
  if scope.is_url_allowed path then
    .ok (open' macos path w)
  else
    .error (.forbiddenUrl path)

/-- `open_path` from `commands.rs`: build the scope the same way, evaluate
`is_path_allowed` (propagating its error with `?`), then either dispatch the
original `path` string to the opener or return `ForbiddenPath` carrying it. -/
def open_path (macos : Bool) (norm : String → Except String String)
    (command_scope global_scope : ScopeData)
    (path : String) (w : Option Program) : Except Error Effect :=
  let scope := Scope.new (command_scope.allows ++ global_scope.allows)
    (command_scope.denies ++ global_scope.denies)
  match scope.is_path_allowed norm path with
  | .error e => .error e
  | .ok true => .ok (open' macos path w)
  | .ok false => .error (.forbiddenPath path)

/-- `reveal_item_in_dir` from `commands.rs`: forwards the path directly to
`crate::reveal_item_in_dir`.  Modelled from the spec for the inner call: the
platform reveal implementation is not in the visible tree and is "a strictly
local, non-content-interpreting action" handed to the OS file manager. -/
def reveal_item_in_dir (path : String) : Except Error Effect :=
  .ok (.revealItem path)

end Commands

end Opener

namespace Opener

/-- C1: for every candidate and every pair of allow/deny entry lists, if any
deny entry matches the candidate, the scope decision is false, regardless of
any allow entry matching it (deny overrides allow). -/
theorem deny_overrides_allow (allowed denied : List Entry) (candidate : String)
    (h : denied.any (fun e => e.matches candidate) = true) :
    scopeDecision allowed denied candidate = false := by
  simp [scopeDecision, h]

theorem deny_overrides_allow_witness :
    ([Entry.mk "https://a*"].any (fun e => e.matches "https://a/x") = true) ∧
    scopeDecision [Entry.mk "https://a*"] [Entry.mk "https://a*"] "https://a/x" = false :=
  ⟨by decide, deny_overrides_allow [Entry.mk "https://a*"] [Entry.mk "https://a*"]
    "https://a/x" (by decide)⟩

/-- C2: with empty allow and deny lists the decision is false, and more
generally whenever no allow entry matches the candidate the decision is
false (default deny). -/
theorem default_deny (allowed denied : List Entry) (candidate : String)
    (h : allowed.any (fun e => e.matches candidate) = false) :
    scopeDecision [] [] candidate = false ∧
    scopeDecision allowed denied candidate = false := by
  refine ⟨by simp [scopeDecision], ?_⟩
  simp only [scopeDecision, h]
  split <;> rfl

theorem default_deny_witness :
    ([Entry.mk "https://a*"].any (fun e => e.matches "ftp://b") = false) ∧
    scopeDecision [] [] "ftp://b" = false ∧
    scopeDecision [Entry.mk "https://a*"] [] "ftp://b" = false :=
  ⟨by decide,
   (default_deny [Entry.mk "https://a*"] [] "ftp://b" (by decide)).1,
   (default_deny [Entry.mk "https://a*"] [] "ftp://b" (by decide)).2⟩

/-- C3: `reveal_item_in_dir` never consults any scope: it takes no scope
inputs at all, and for every path — whatever the configured scope data
would be — it proceeds directly to the OS opener with that path. -/
theorem reveal_ungated (_command_scope _global_scope : ScopeData) (path : String) :
    Commands.reveal_item_in_dir path = .ok (.revealItem path) :=
  rfl

/-- C6: the merge of call-scope and global-scope entries is commutative and
associative in its effect on the decision, and duplicate entries do not
change the decision. -/
theorem merge_order_irrelevant (candidate : String)
    (a1 a2 a3 d1 d2 d3 : List Entry) :
    (scopeDecision (a1 ++ a2) (d1 ++ d2) candidate
      = scopeDecision (a2 ++ a1) (d2 ++ d1) candidate) ∧
    (scopeDecision ((a1 ++ a2) ++ a3) ((d1 ++ d2) ++ d3) candidate
      = scopeDecision (a1 ++ (a2 ++ a3)) (d1 ++ (d2 ++ d3)) candidate) ∧
    (scopeDecision (a1 ++ a1) (d1 ++ d1) candidate
      = scopeDecision a1 d1 candidate) := by
  refine ⟨?_, ?_, ?_⟩ <;>
    simp [scopeDecision, List.any_append, Bool.or_comm, Bool.or_self]

end Opener

namespace Opener

/-- C4: whenever the decision on the URL is negative, `open_url` returns
`ForbiddenUrl` carrying exactly the caller-supplied string and dispatches no
OS invocation (the result is an error, not an `Effect`); and whenever the
path normalizes and the decision on its normalized form is negative —
however the raw string would have fared — `open_path` returns
`ForbiddenPath` with the original caller-supplied string. -/
theorem forbidden_carries_original (macos : Bool)
    (norm : String → Except String String) (cs gs : ScopeData)
    (path n : String) (w : Option Program) :
    (scopeDecision (cs.allows ++ gs.allows) (cs.denies ++ gs.denies) path = false →
      Commands.open_url macos cs gs path w = .error (.forbiddenUrl path)) ∧
    (norm path = .ok n →
      scopeDecision (cs.allows ++ gs.allows) (cs.denies ++ gs.denies) n = false →
      Commands.open_path macos norm cs gs path w = .error (.forbiddenPath path)) := by
  constructor
  · intro hurl
    simp [Commands.open_url, Scope.new, Scope.is_url_allowed, hurl]
  · intro hn hp
    simp [Commands.open_path, Scope.new, Scope.is_path_allowed, hn, hp]

theorem forbidden_carries_original_witness :
    Commands.open_url false ⟨[], [Entry.mk "https://evil.example.com/*"]⟩
      ⟨[Entry.mk "https://*"], []⟩ "https://evil.example.com/x" none
      = .error (.forbiddenUrl "https://evil.example.com/x") ∧
    Commands.open_path false (fun _ => .ok "/home/user/secrets/key")
      ⟨[], []⟩ ⟨[Entry.mk "/home/user/docs/*"], []⟩
      "/home/user/docs/../secrets/key" none
      = .error (.forbiddenPath "/home/user/docs/../secrets/key") :=
  ⟨(forbidden_carries_original false (fun _ => .ok "/home/user/secrets/key")
      ⟨[], [Entry.mk "https://evil.example.com/*"]⟩ ⟨[Entry.mk "https://*"], []⟩
      "https://evil.example.com/x" "https://evil.example.com/x" none).1 (by decide),
   (forbidden_carries_original false (fun _ => .ok "/home/user/secrets/key")
      ⟨[], []⟩ ⟨[Entry.mk "/home/user/docs/*"], []⟩
      "/home/user/docs/../secrets/key" "/home/user/secrets/key" none).2
      rfl (by decide)⟩

/-- C5: when normalization of the path fails, `open_path` returns the I/O
error wrapping the failure — an error kind distinct from `ForbiddenPath` —
so no denial is reported and no OS invocation is dispatched. -/
theorem path_resolution_error_distinct (macos : Bool)
    (norm : String → Except String String) (cs gs : ScopeData)
    (path e : String) (w : Option Program)
    (hn : norm path = .error e) :
    Commands.open_path macos norm cs gs path w = .error (.io e) ∧
    ∀ s : String, (Error.io e ≠ Error.forbiddenPath s) := by
  constructor
  · simp [Commands.open_path, Scope.new, Scope.is_path_allowed, hn]
  · intro s hcontra
    exact Error.noConfusion hcontra

theorem path_resolution_error_distinct_witness :
    Commands.open_path false (fun _ => .error "ENOENT") ⟨[], []⟩ ⟨[], []⟩
      "/missing" none = .error (.io "ENOENT") ∧
    ∀ s : String, (Error.io "ENOENT" ≠ Error.forbiddenPath s) :=
  path_resolution_error_distinct false (fun _ => .error "ENOENT")
    ⟨[], []⟩ ⟨[], []⟩ "/missing" "ENOENT" none rfl

/-- C7: `Program::name` equals the display token for `Open`, `Start`,
`XdgOpen`, `Gio`, `GnomeOpen`, `KdeOpen`, `WslView` on both platform
configurations; for `Firefox`, `Chrome`, `Chromium`, `Safari` it is the
capitalized product name when built for macOS and the lowercase dashed name
otherwise.  The display token takes no platform input at all, so it is the
same on every platform by construction. -/
theorem program_name_platform_split (macos : Bool) :
    (Program.name macos .open' = Program.display .open' ∧
     Program.name macos .start = Program.display .start ∧
     Program.name macos .xdgOpen = Program.display .xdgOpen ∧
     Program.name macos .gio = Program.display .gio ∧
     Program.name macos .gnomeOpen = Program.display .gnomeOpen ∧
     Program.name macos .kdeOpen = Program.display .kdeOpen ∧
     Program.name macos .wslView = Program.display .wslView) ∧
    (Program.name true .firefox = "Firefox" ∧
     Program.name false .firefox = "firefox" ∧
     Program.name true .chrome = "Google Chrome" ∧
     Program.name false .chrome = "google-chrome" ∧
     Program.name true .chromium = "Chromium" ∧
     Program.name false .chromium = "chromium" ∧
     Program.name true .safari = "Safari" ∧
     Program.name false .safari = "safari") :=
  ⟨⟨rfl, rfl, rfl, rfl, rfl, rfl, rfl⟩,
   rfl, rfl, rfl, rfl, rfl, rfl, rfl, rfl⟩

/-- The variant a parse result yields, forgetting the error payload. -/
def variantOf : Except Error Program → Option Program
  | .ok p => some p
  | .error _ => none

/-- C8: parsing is case-insensitive — two inputs with the same lowercase
form yield the same variant (or both fail) — and `"GOOGLE CHROME"` and
`"chrome"` both parse to the `Chrome` variant (the one alias). -/
theorem parse_case_insensitive_alias :
    Program.fromStr "GOOGLE CHROME" = .ok .chrome ∧
    Program.fromStr "chrome" = .ok .chrome ∧
    ∀ s t : String, lowercase s = lowercase t →
      variantOf (Program.fromStr s) = variantOf (Program.fromStr t) := by
  refine ⟨rfl, rfl, ?_⟩
  intro s t h
  unfold Program.fromStr
  rw [h]
  cases lookupProg (lowercase t) <;> rfl

theorem parse_case_insensitive_alias_witness :
    (lowercase "CHROME" = lowercase "chrome") ∧
    variantOf (Program.fromStr "CHROME") = variantOf (Program.fromStr "chrome") :=
  ⟨by decide, parse_case_insensitive_alias.2.2 "CHROME" "chrome" (by decide)⟩

/-- C9: for every input whose lowercase form matches no recognized token,
parsing fails with `UnknownProgramName` carrying the original input
verbatim — the stated equality pins the entire result, so no success or
other outcome is possible. -/
theorem parse_unknown_carries_original (s : String)
    (h : lookupProg (lowercase s) = none) :
    Program.fromStr s = .error (.unknownProgramName s) := by
  unfold Program.fromStr
  rw [h]

theorem parse_unknown_carries_original_witness :
    (lookupProg (lowercase "not-a-real-program") = none) ∧
    Program.fromStr "not-a-real-program"
      = .error (.unknownProgramName "not-a-real-program") :=
  ⟨by decide, parse_unknown_carries_original "not-a-real-program" (by decide)⟩

/-- C10: every permitted request dispatches the OS opener on exactly the
caller-supplied resource string: `open_url` whenever the decision on the URL
is positive, and `open_path` whenever the path normalizes and the decision
on its normalized form `n` is positive — the launched argument is the
original string, not `n`, however the raw string would have fared — with
the override program's platform executable name when an override is given,
and with no program otherwise. -/
theorem permitted_dispatch_raw_string (macos : Bool)
    (norm : String → Except String String) (cs gs : ScopeData)
    (path n : String) (w : Option Program) :
    (scopeDecision (cs.allows ++ gs.allows) (cs.denies ++ gs.denies) path = true →
      Commands.open_url macos cs gs path w = .ok (open' macos path w)) ∧
    (norm path = .ok n →
      scopeDecision (cs.allows ++ gs.allows) (cs.denies ++ gs.denies) n = true →
      Commands.open_path macos norm cs gs path w = .ok (open' macos path w)) ∧
    open' macos path w = (match w with
      | some p => Effect.withDetached path (Program.name macos p)
      | none => Effect.thatDetached path) := by
  refine ⟨?_, ?_, ?_⟩
  · intro hurl
    simp [Commands.open_url, Scope.new, Scope.is_url_allowed, hurl]
  · intro hn hp
    simp [Commands.open_path, Scope.new, Scope.is_path_allowed, hn, hp]
  · cases w <;> rfl

theorem permitted_dispatch_raw_string_witness :
    Commands.open_url false ⟨[Entry.mk "https://*"], []⟩ ⟨[], []⟩
      "https://ok.example.com/x" none
      = .ok (open' false "https://ok.example.com/x" none) ∧
    Commands.open_path false (fun _ => .ok "/home/user/docs/report.pdf")
      ⟨[], []⟩ ⟨[Entry.mk "/home/user/docs/*"], []⟩ "report.pdf" (some .chrome)
      = .ok (open' false "report.pdf" (some .chrome)) ∧
    open' false "report.pdf" (some .chrome)
      = Effect.withDetached "report.pdf" "google-chrome" :=
  ⟨(permitted_dispatch_raw_string false (fun _ => .ok "/home/user/docs/report.pdf")
      ⟨[Entry.mk "https://*"], []⟩ ⟨[], []⟩ "https://ok.example.com/x"
      "https://ok.example.com/x" none).1 (by decide),
   (permitted_dispatch_raw_string false (fun _ => .ok "/home/user/docs/report.pdf")
      ⟨[], []⟩ ⟨[Entry.mk "/home/user/docs/*"], []⟩ "report.pdf"
      "/home/user/docs/report.pdf" (some .chrome)).2.1 rfl (by decide),
   (permitted_dispatch_raw_string false (fun _ => .ok "/home/user/docs/report.pdf")
      ⟨[], []⟩ ⟨[Entry.mk "/home/user/docs/*"], []⟩ "report.pdf"
      "/home/user/docs/report.pdf" (some .chrome)).2.2⟩

end Opener
